import Mathlib

/-!
Verification development for the zkBob cloud wallet service.

The definitions below are shallow embeddings of the Rust sources:
  * `src/errors.rs`            — error taxonomy and HTTP status mapping
  * `src/cloud/types.rs`       — transfer statuses and relayer-status mapping
  * `src/account/mod.rs`       — the transfer planner `get_tx_parts`
  * `src/cloud/mod.rs`         — `transfer` intake and part construction, `new_account`
  * `src/cloud/send_worker.rs` — the submit worker's `process` step
  * `src/relayer/cached.rs` and `src/relayer/db.rs` — the cached relayer client
  * `src/account/tx_parser.rs` — memo/batch parsing
  * `src/account/history.rs`   — history classification
  * `src/types.rs`             — transaction status response assembly

Machine integers are modelled as `Nat` (with explicit wrapping where the code
wraps); field elements `Num<Fr>` are modelled as `Nat` representatives reduced
modulo the BN254 scalar-field modulus; fallible code returns `Except`.
External collaborators (relayer HTTP client, wallet-crypto library, key-value
store) are passed in as explicit parameters so that the control flow of the
embedded functions is exactly the source's.
-/

namespace ZkCloud

/-- Error taxonomy, from `CloudError` in `src/errors.rs`. -/
inductive CloudError where
  | BadRequest (msg : String)
  | CustodyLockError
  | StateSyncError
  | IncorrectAccountId
  | AccountNotFound
  | DuplicateAccountId
  | InvalidTransactionId
  | DuplicateTransactionId
  | DataBaseReadError (msg : String)
  | DataBaseWriteError (msg : String)
  | RelayerSendError
  | TransactionNotFound
  | InternalError (msg : String)
  | RetriesExhausted
  | TaskRejectedByRelayer (reason : String)
  | RetryNeeded
  | AccessDenied
  | PreviousTxFailed
  | InsufficientBalance
  | AccountIsBusy
  | AccountIsNotSynced
  | ServiceIsBusy
  | TransactionExpired
  | TransactionStatusUnknown
  | ConfigError (msg : String)
  | Web3Error
  | ReportNotFound
  deriving DecidableEq, Repr

/-- HTTP status mapping, from `CloudError::status_code` in `src/errors.rs`. -/
def CloudError.statusCode : CloudError → Nat
  | .TransactionNotFound
  | .DuplicateTransactionId
  | .BadRequest _
  | .IncorrectAccountId
  | .AccountNotFound => 400
  | .AccessDenied => 401
  | _ => 500

/-- The `#[error("...")]` display strings of `CloudError`, from `src/errors.rs`
(`thiserror` derives `to_string` from them). -/
def CloudError.describe : CloudError → String
  | .BadRequest msg => "request malformed or invalid: " ++ msg
  | .CustodyLockError => "internal error"
  | .StateSyncError => "internal error"
  | .IncorrectAccountId => "bad account id"
  | .AccountNotFound => "bad account id"
  | .DuplicateAccountId => "duplicate account id"
  | .InvalidTransactionId => "request id cannot contain " ++ "'.'"
  | .DuplicateTransactionId => "request id already exists"
  | .DataBaseReadError _ => "internal error"
  | .DataBaseWriteError _ => "internal error"
  | .RelayerSendError => "internal error"
  | .TransactionNotFound => "request not found"
  | .InternalError msg => "general error occured:" ++ "'" ++ msg ++ "'"
  | .RetriesExhausted => "retries exhausted"
  | .TaskRejectedByRelayer reason => "relayer returned error: " ++ "'" ++ reason ++ "'"
  | .RetryNeeded => "need retry"
  | .AccessDenied => "access denied"
  | .PreviousTxFailed => "previous tx failed"
  | .InsufficientBalance => "insufficient balance"
  | .AccountIsBusy => "account is busy"
  | .AccountIsNotSynced => "account is not synced yet"
  | .ServiceIsBusy => "service is busy"
  | .TransactionExpired => "transaction expired"
  | .TransactionStatusUnknown => "transaction status is unknown"
  | .ConfigError _ => "failed to parse config"
  | .Web3Error => "rpc error"
  | .ReportNotFound => "bad report id"

/-- Transfer part status, from `TransferStatus` in `src/cloud/types.rs`. -/
inductive TransferStatus where
  | New
  | Proving
  | Relaying
  | Mining
  | Done
  | Failed (err : CloudError)
  deriving DecidableEq, Repr

/-- `TransferStatus::from_relayer_response` from `src/cloud/types.rs`:
maps the relayer job state string to the internal status enum. -/
def TransferStatus.fromRelayerResponse (status : String) (failureReason : Option String) :
    TransferStatus :=
  if status = "waiting" then .Relaying
  else if status = "sent" then .Mining
  else if status = "completed" then .Done
  else if status = "reverted" then .Failed (.TaskRejectedByRelayer (failureReason.getD ""))
  else if status = "failed" then .Failed (.TaskRejectedByRelayer (failureReason.getD ""))
  else .Failed .RelayerSendError

/-- `TransferStatus::is_final` from `src/cloud/types.rs`. -/
def TransferStatus.isFinal : TransferStatus → Bool
  | .Done => true
  | .Failed _ => true
  | _ => false

/-- `TransferStatus::status` from `src/cloud/types.rs`: the user-facing status
string ("Failed" for any failure, the Debug name otherwise). -/
def TransferStatus.statusString : TransferStatus → String
  | .New => "New"
  | .Proving => "Proving"
  | .Relaying => "Relaying"
  | .Mining => "Mining"
  | .Done => "Done"
  | .Failed _ => "Failed"

/-- `TransferStatus::failure_reason` from `src/cloud/types.rs`. -/
def TransferStatus.failureReason : TransferStatus → Option String
  | .Failed err => some err.describe
  | _ => none

/-! ## Field arithmetic

`Num<Fr>` values are elements of the BN254 scalar field; `to_uint()` yields the
canonical representative in `[0, frModulus)`.  Amounts entering the planner are
`u64` values embedded via `Num::from_uint`. -/

/-- Modulus of the BN254 scalar field `Fr` used by the pool. -/
def frModulus : Nat :=
  21888242871839275222246405745257275088548364400416034343698204186575808495617

/-- Field addition on canonical representatives. -/
def fadd (a b : Nat) : Nat := (a + b) % frModulus

/-- Field subtraction on canonical representatives (wraps below zero, as the
Rust `Num<Fr>` subtraction does). -/
def fsub (a b : Nat) : Nat := (a + (frModulus - b % frModulus)) % frModulus

/-! ## Transfer planner (`Account::get_tx_parts`, `src/account/mod.rs`) -/

/-- Rust slice `chunks(3)`: consecutive chunks of three, the last chunk may be
shorter, an empty list yields no chunks. -/
def chunks3 : List α → List (List α)
  | [] => []
  | [a] => [[a]]
  | [a, b] => [[a, b]]
  | a :: b :: c :: rest => [a, b, c] :: chunks3 rest

/-- The note-aggregation loop of `get_tx_parts`: walks chunks of usable-note
balances, accumulating intermediate `(None, note_balance - fee)` parts until a
chunk (plus running balance) covers `amount + fee`, in which case the final
`(Some(to), amount)` part is appended and the flag is set. -/
def planLoop (amount fee : Nat) (toAddr : String) :
    List (List Nat) → Nat → List (Option String × Nat) →
    List (Option String × Nat) × Bool
  | [], _, parts => (parts, false)
  | chunk :: rest, bal, parts =>
    if fadd amount fee ≤ fadd (chunk.foldl fadd 0) bal then
      (parts ++ [(some toAddr, amount)], true)
    else
      planLoop amount fee toAddr rest (fadd bal (fsub (chunk.foldl fadd 0) fee))
        (parts ++ [(none, fsub (chunk.foldl fadd 0) fee)])

/-- `Account::get_tx_parts` from `src/account/mod.rs`.  `accountBalance` is the
account-record balance and `usableNotes` the balances of
`state.get_usable_notes()` in engine order (both canonical field
representatives); `totalAmount` and `fee` are the `u64` arguments. -/
def getTxParts (accountBalance : Nat) (usableNotes : List Nat)
    (totalAmount fee : Nat) (toAddr : String) :
    Except CloudError (List (Option String × Nat)) :=
  let amount := totalAmount % frModulus
  let fee := fee % frModulus
  if fadd amount fee ≤ accountBalance then
    .ok [(some toAddr, amount)]
  else
    let r := planLoop amount fee toAddr (chunks3 usableNotes) accountBalance []
    if r.2 then .ok r.1 else .error .InsufficientBalance

/-- Running balance after consuming a list of note chunks: per chunk, its
summed balance is added and one fee deducted (all in field arithmetic),
mirroring `account_balance += note_balance - fee` in the planner loop. -/
def prefixBal (fee bal0 : Nat) (chunks : List (List Nat)) : Nat :=
  chunks.foldl (fun b c => fadd b (fsub (c.foldl fadd 0) fee)) bal0

/-! ## Cached relayer client (`src/relayer/cached.rs`, `src/relayer/db.rs`)

`OUT + 1 = 128` leaves per pool transaction; the code steps indices by the
literal `128`. -/

/-- A pool transaction record, `Transaction` in `src/relayer/cached.rs`. -/
structure Transaction where
  index : Nat
  memo : List Nat
  commitment : Nat
  txHash : String
  optimistic : Bool
  deriving DecidableEq, Repr

/-- One record of the relayer's `transactions` response, decoded from its wire
string: `minedFlag` is true iff the first byte is `'1'`, `txHashHex` the next
64 hex chars, `commitment` the big-endian number in the next 64 hex chars,
`memo` the remaining hex-decoded bytes. -/
structure RawTx where
  minedFlag : Bool
  txHashHex : String
  commitment : Nat
  memo : List Nat
  deriving DecidableEq, Repr

/-- The relayer cache database (`Db` in `src/relayer/db.rs`): the
`Transactions` column keyed by the record index (the code keys by the
big-endian bytes of the `u64` index, an injective encoding). -/
def RelayerDb : Type := Nat → Option Transaction

/-- `Db::get_txs` from `src/relayer/db.rs`: read records at keys
`offset, offset+128, ...` (at most `limit` of them), stopping at the first
miss; returns the stored records. -/
def getTxs (db : RelayerDb) (offset : Nat) : Nat → List Transaction
  | 0 => []
  | limit + 1 =>
    match db offset with
    | some tx => tx :: getTxs db (offset + 128) limit
    | none => []

/-- `Db::save_txs` from `src/relayer/db.rs`: one write batch storing each
record under its own index. -/
def saveTxs (db : RelayerDb) (txs : List Transaction) : RelayerDb :=
  txs.foldl (fun d tx => fun k => if k = tx.index then some tx else d k) db

/-- The loop over fetched records in `CachedRelayerClient::transactions`: the
`i`-th fetched record is assigned index `offset + i*128`; it is kept iff
`with_optimistic` or it is mined. -/
def fetchLoop (withOptimistic : Bool) (offset : Nat) : Nat → List RawTx → List Transaction
  | _, [] => []
  | i, r :: rest =>
    let tx : Transaction :=
      { index := offset + i * 128, memo := r.memo, commitment := r.commitment,
        txHash := "0x" ++ r.txHashHex, optimistic := !r.minedFlag }
    if withOptimistic || !tx.optimistic then
      tx :: fetchLoop withOptimistic offset (i + 1) rest
    else
      fetchLoop withOptimistic offset (i + 1) rest

/-- `CachedRelayerClient::transactions` from `src/relayer/cached.rs`: read the
cached prefix, fetch the uncovered suffix from the relayer (`fetch` is the
HTTP client), filter by `with_optimistic`, persist the mined records
(write-behind; a failure there would not change the returned value), and
return the combined list together with the updated cache. -/
def cachedTransactions (db : RelayerDb) (fetch : Nat → Nat → List RawTx)
    (offset limit : Nat) (withOptimistic : Bool) :
    List Transaction × RelayerDb :=
  let cached := getTxs db offset limit
  let offset1 := offset + 128 * cached.length
  let limit1 := limit - cached.length
  if limit1 = 0 then (cached, db)
  else
    let result := cached ++ fetchLoop withOptimistic offset1 0 (fetch offset1 limit1)
    (result, saveTxs db (result.filter fun tx => !tx.optimistic))

/-- Cache consistency: every stored record sits under its own index.  This is
the invariant `save_txs` maintains (it keys each record by `tx.index`). -/
def RelayerDb.consistent (db : RelayerDb) : Prop :=
  ∀ i tx, db i = some tx → tx.index = i

theorem getTxs_indices (db : RelayerDb) (hdb : db.consistent) :
    ∀ (limit offset : Nat),
      (getTxs db offset limit).map (fun tx => tx.index) =
        (List.range (getTxs db offset limit).length).map (fun k => offset + k * 128) := by
  intro limit
  induction limit with
  | zero => intro offset; simp [getTxs]
  | succ n ih =>
    intro offset
    rw [getTxs]
    cases h : db offset with
    | none => simp
    | some tx =>
      have hidx : tx.index = offset := hdb offset tx h
      simp only [List.map_cons, List.length_cons, hidx, List.range_succ_eq_map,
        List.map_map]
      rw [ih (offset + 128)]
      simp only [List.cons.injEq, Function.comp]
      refine ⟨by omega, List.map_congr_left ?_⟩
      intro k _
      simp only [Function.comp]
      omega

theorem fetchLoop_all_optimistic (offset : Nat) (raws : List RawTx)
    (hall : ∀ r ∈ raws, r.minedFlag = false) :
    ∀ i, fetchLoop false offset i raws = [] := by
  induction raws with
  | nil => intro i; rfl
  | cons r rest ih =>
    intro i
    have hr : r.minedFlag = false := hall r (by simp)
    rw [fetchLoop]
    simp [hr, ih (fun x hx => hall x (by simp [hx])) (i + 1)]

theorem fetchLoop_mined_prefix (offset : Nat) (mined optim : List RawTx)
    (hm : ∀ r ∈ mined, r.minedFlag = true)
    (ho : ∀ r ∈ optim, r.minedFlag = false) :
    ∀ i, (fetchLoop false offset i (mined ++ optim)).map (fun tx => tx.index) =
      (List.range mined.length).map (fun k => offset + (i + k) * 128) := by
  induction mined with
  | nil =>
    intro i
    simp [fetchLoop_all_optimistic offset optim ho i]
  | cons r rest ih =>
    intro i
    have hr : r.minedFlag = true := hm r (by simp)
    have ihh := ih (fun x hx => hm x (by simp [hx])) (i + 1)
    rw [List.cons_append, fetchLoop]
    simp only [hr, Bool.not_true, Bool.not_false, Bool.false_or, if_true, List.map_cons]
    rw [List.length_cons, List.range_succ_eq_map, List.map_cons, List.map_map, ihh]
    simp only [List.cons.injEq, Function.comp]
    refine ⟨by omega, List.map_congr_left ?_⟩
    intro k _
    simp only [Function.comp]
    omega

/-- C5 (amended): provided the cache is consistent (each record stored under
its own index — the invariant `save_txs` maintains) and the relayer returns
mined records before optimistic ones, `transactions(offset, limit, false)`
returns records whose indices form the strictly increasing sequence
`offset + k·(OUT+1)` for `k = 0..n−1`; the `i`-th record obtained from the
relayer is assigned index `offset-after-cache + i·(OUT+1)` by construction
(`fetchLoop`). -/
theorem transactions_index_progression (db : RelayerDb) (fetch : Nat → Nat → List RawTx)
    (offset limit : Nat) (hdb : db.consistent)
    (hpref : ∀ o l, ∃ mined optim, fetch o l = mined ++ optim ∧
        (∀ r ∈ mined, r.minedFlag = true) ∧ (∀ r ∈ optim, r.minedFlag = false)) :
    ((cachedTransactions db fetch offset limit false).1.map fun tx => tx.index) =
      (List.range (cachedTransactions db fetch offset limit false).1.length).map
        (fun k => offset + k * 128) ∧
    ((cachedTransactions db fetch offset limit false).1.map fun tx => tx.index).Pairwise
      (· < ·) := by
  have hprog :
      ((cachedTransactions db fetch offset limit false).1.map fun tx => tx.index) =
        (List.range (cachedTransactions db fetch offset limit false).1.length).map
          (fun k => offset + k * 128) := by
    rw [cachedTransactions]
    by_cases h0 : limit - (getTxs db offset limit).length = 0
    · rw [if_pos h0]
      exact getTxs_indices db hdb limit offset
    · rw [if_neg h0]
      dsimp only
      obtain ⟨mined, optim, hfe, hm, ho⟩ :=
        hpref (offset + 128 * (getTxs db offset limit).length)
          (limit - (getTxs db offset limit).length)
      rw [hfe]
      have hcache := getTxs_indices db hdb limit offset
      have hfetch := fetchLoop_mined_prefix
        (offset + 128 * (getTxs db offset limit).length) mined optim hm ho 0
      have hflen :
          (fetchLoop false (offset + 128 * (getTxs db offset limit).length) 0
            (mined ++ optim)).length = mined.length := by
        have := congrArg List.length hfetch
        simpa using this
      rw [List.map_append, hcache, hfetch, List.length_append, hflen,
        List.range_add, List.map_append, List.map_map]
      congr 1
      apply List.map_congr_left
      intro k _
      simp only [Function.comp]
      ring
  refine ⟨hprog, ?_⟩
  rw [hprog]
  refine List.Pairwise.map _ (fun a b h => ?_) (List.pairwise_lt_range _)
  omega

/-- C5 witness: the progression theorem applied to the empty cache and a
relayer that returns nothing. -/
theorem transactions_index_progression_witness :
    (RelayerDb.consistent (fun _ => none) ∧
      (∀ o l, ∃ mined optim,
        ((fun _ _ => [] : Nat → Nat → List RawTx)) o l = mined ++ optim ∧
          (∀ r ∈ mined, r.minedFlag = true) ∧ (∀ r ∈ optim, r.minedFlag = false))) ∧
    (((cachedTransactions (fun _ => none) (fun _ _ => []) 0 0 false).1.map
        fun tx => tx.index) =
      (List.range (cachedTransactions (fun _ => none) (fun _ _ => []) 0 0
        false).1.length).map (fun k => 0 + k * 128) ∧
      ((cachedTransactions (fun _ => none) (fun _ _ => []) 0 0 false).1.map
        fun tx => tx.index).Pairwise (· < ·)) :=
  ⟨⟨fun i tx h => Option.noConfusion h, fun o l => ⟨[], [], rfl, by simp, by simp⟩⟩,
   transactions_index_progression (fun _ => none) (fun _ _ => []) 0 0
     (fun i tx h => Option.noConfusion h)
     (fun o l => ⟨[], [], rfl, by simp, by simp⟩)⟩

/-- C5 counterexample to the claim as stated: with an empty cache and a
relayer response in which an optimistic record precedes a mined one, the
mined record keeps its enumeration index `offset + 1·128`, so the returned
index list is `[128]`, not the claimed `[offset + k·(OUT+1) for k = 0..0] =
[0]`. -/
theorem transactions_sequence_counterexample :
    ((cachedTransactions (fun _ => none)
        (fun _ _ =>
          [{ minedFlag := false, txHashHex := "aa", commitment := 1, memo := [] },
           { minedFlag := true, txHashHex := "bb", commitment := 2, memo := [] }])
        0 2 false).1.map fun tx => tx.index) = [128] ∧
    ¬ (([128] : List Nat) =
        (List.range 1).map fun k => 0 + k * 128) := by
  constructor
  · rfl
  · decide

/-- C3 counterexample to the claim as stated: the mapping sends
`InvalidTransactionId` (raised when a transfer request id contains a dot) to
500, not 400, and it sends `TransactionNotFound` to 400, not 500. -/
theorem statusCode_claim_counterexample :
    CloudError.statusCode .InvalidTransactionId ≠ 400 ∧
    CloudError.statusCode .TransactionNotFound ≠ 500 := by
  constructor <;> decide

/-- C3 (amended): `CloudError::status_code` sends exactly `BadRequest`,
`IncorrectAccountId`, `AccountNotFound`, `DuplicateTransactionId` and
`TransactionNotFound` to 400, exactly `AccessDenied` to 401, and every other
variant — `InvalidTransactionId` included — to 500. -/
theorem statusCode_mapping (e : CloudError) :
    (e.statusCode = 400 ↔
      (∃ m, e = .BadRequest m) ∨ e = .IncorrectAccountId ∨ e = .AccountNotFound ∨
        e = .DuplicateTransactionId ∨ e = .TransactionNotFound) ∧
    (e.statusCode = 401 ↔ e = .AccessDenied) ∧
    (e.statusCode = 500 ↔
      ¬((∃ m, e = .BadRequest m) ∨ e = .IncorrectAccountId ∨ e = .AccountNotFound ∨
          e = .DuplicateTransactionId ∨ e = .TransactionNotFound ∨ e = .AccessDenied)) := by
  cases e <;> simp [CloudError.statusCode]

/-- C8: `TransferStatus::from_relayer_response` maps the relayer job state
string exactly as specified: waiting to Relaying, sent to Mining, completed to
Done, reverted and failed to `Failed(TaskRejectedByRelayer(reason))` with the
supplied reason (empty string when absent), and any other state string to
`Failed(RelayerSendError)`. -/
theorem fromRelayerResponse_mapping (r : Option String) :
    TransferStatus.fromRelayerResponse "waiting" r = .Relaying ∧
    TransferStatus.fromRelayerResponse "sent" r = .Mining ∧
    TransferStatus.fromRelayerResponse "completed" r = .Done ∧
    TransferStatus.fromRelayerResponse "reverted" r =
      .Failed (.TaskRejectedByRelayer (r.getD "")) ∧
    TransferStatus.fromRelayerResponse "failed" r =
      .Failed (.TaskRejectedByRelayer (r.getD "")) ∧
    (∀ reason, r = some reason → r.getD "" = reason) ∧
    (r = none → r.getD "" = "") ∧
    (∀ s, s ∉ (["waiting", "sent", "completed", "reverted", "failed"] : List String) →
      TransferStatus.fromRelayerResponse s r = .Failed .RelayerSendError) := by
  refine ⟨rfl, rfl, rfl, rfl, rfl, ?_, ?_, ?_⟩
  · intro reason h; simp [h]
  · intro h; simp [h]
  · intro s hs
    simp only [List.mem_cons, List.mem_singleton] at hs
    push_neg at hs
    obtain ⟨h1, h2, h3, h4, h5⟩ := hs
    obtain ⟨h5, -⟩ := h5
    simp [TransferStatus.fromRelayerResponse, h1, h2, h3, h4, h5]

theorem two_pow_64_lt_frModulus : 2 ^ 64 < frModulus := by
  norm_num [frModulus]

theorem planLoop_ok_shape (a f : Nat) (t : String) :
    ∀ (chunks : List (List Nat)) (bal : Nat) (parts out : List (Option String × Nat)),
      planLoop a f t chunks bal parts = (out, true) →
      ∃ mid, out = parts ++ mid ++ [(some t, a)] ∧ ∀ x ∈ mid, x.1 = none := by
  intro chunks
  induction chunks with
  | nil =>
    intro bal parts out h
    simp [planLoop] at h
  | cons c rest ih =>
    intro bal parts out h
    rw [planLoop] at h
    split at h
    · obtain ⟨h1, -⟩ := Prod.mk.injEq _ _ _ _ ▸ h
      exact ⟨[], by simp [h1.symm], by simp⟩
    · obtain ⟨mid, hmid, hnone⟩ := ih _ _ _ h
      refine ⟨(none, fsub (c.foldl fadd 0) f) :: mid, by simp [hmid], ?_⟩
      intro x hx
      rcases List.mem_cons.mp hx with h | h
      · simp [h]
      · exact hnone x h

theorem planLoop_failure_iff (a f : Nat) (t : String) :
    ∀ (chunks : List (List Nat)) (bal : Nat) (parts : List (Option String × Nat)),
      (planLoop a f t chunks bal parts).2 = false ↔
      ∀ j < chunks.length,
        fadd ((chunks.getD j []).foldl fadd 0) (prefixBal f bal (chunks.take j)) <
          fadd a f := by
  intro chunks
  induction chunks with
  | nil =>
    intro bal parts
    simp [planLoop]
  | cons c rest ih =>
    intro bal parts
    rw [planLoop]
    split
    · rename_i hcond
      simp only [Prod.snd]
      constructor
      · intro h; exact absurd h (by simp)
      · intro h
        have h0 := h 0 (by simp)
        simp only [List.getD_cons_zero, List.take_zero, prefixBal, List.foldl] at h0
        omega
    · rename_i hcond
      rw [ih]
      constructor
      · intro h j hj
        match j with
        | 0 =>
          simp only [List.getD_cons_zero, List.take_zero, prefixBal, List.foldl]
          omega
        | j + 1 =>
          have := h j (by simpa using hj)
          simpa [List.getD_cons_succ, List.take_succ_cons, prefixBal] using this
      · intro h j hj
        have := h (j + 1) (by simpa using hj)
        simpa [List.getD_cons_succ, List.take_succ_cons, prefixBal] using this

/-- C1 (amended): planner correctness as the code implements it.  If
`get_tx_parts` returns parts, the sum of the parts' amounts (canonical field
representatives) is at least `amount` and only the last part carries
`to = Some(to)`; if it returns an error, the error is `InsufficientBalance`,
the account balance alone does not cover `amount + fee`, and no chunk of three
usable notes, taken in engine order on top of the running balance (one fee
deducted per previously consumed chunk, in field arithmetic), reaches
`amount + fee`. -/
theorem getTxParts_planner_correctness (bal : Nat) (notes : List Nat)
    (amount fee : Nat) (t : String) (hA : amount < 2 ^ 64) (hF : fee < 2 ^ 64) :
    (∀ parts, getTxParts bal notes amount fee t = .ok parts →
        amount ≤ (parts.map Prod.snd).sum ∧
        parts.map Prod.fst = List.replicate (parts.length - 1) none ++ [some t]) ∧
    (∀ e, getTxParts bal notes amount fee t = .error e →
        e = .InsufficientBalance ∧
        bal < amount + fee ∧
        ∀ j < (chunks3 notes).length,
          fadd (((chunks3 notes).getD j []).foldl fadd 0)
              (prefixBal fee bal ((chunks3 notes).take j)) < fadd amount fee) := by
  have hm : amount % frModulus = amount :=
    Nat.mod_eq_of_lt (lt_trans hA two_pow_64_lt_frModulus)
  have hf : fee % frModulus = fee :=
    Nat.mod_eq_of_lt (lt_trans hF two_pow_64_lt_frModulus)
  have hsum : fadd amount fee = amount + fee := by
    have h65 : 2 ^ 65 < frModulus := by norm_num [frModulus]
    have : amount + fee < frModulus := by omega
    simp [fadd, Nat.mod_eq_of_lt this]
  constructor
  · intro parts hok
    rw [getTxParts] at hok
    simp only [hm, hf] at hok
    split at hok
    · obtain rfl := Except.ok.inj hok
      simp
    · split at hok
      · rename_i hflag
        obtain rfl := Except.ok.inj hok
        obtain ⟨mid, hmid, hnone⟩ :=
          planLoop_ok_shape amount fee t (chunks3 notes) bal []
            (planLoop amount fee t (chunks3 notes) bal []).1 (by rw [← hflag])
        rw [hmid]
        constructor
        · simp
        · have hlen : (mid.map Prod.fst).length = mid.length := List.length_map _ _
          have hrep : mid.map Prod.fst = List.replicate mid.length none := by
            rw [← hlen]
            apply List.eq_replicate_of_mem
            intro o ho
            obtain ⟨x, hx, rfl⟩ := List.mem_map.mp ho
            exact hnone x hx
          simp [hrep]
      · exact absurd hok (by simp)
  · intro e herr
    rw [getTxParts] at herr
    simp only [hm, hf] at herr
    split at herr
    · exact absurd herr (by simp)
    · rename_i hinit
      split at herr
      · exact absurd herr (by simp)
      · rename_i hflag
        obtain rfl := (Except.error.inj herr).symm
        refine ⟨rfl, by omega, ?_⟩
        have := (planLoop_failure_iff amount fee t (chunks3 notes) bal []).mp
          (by simpa using hflag)
        simpa [hsum] using this

/-- C1 witness: the planner correctness theorem applied to a concrete failing
state (no balance, notes `[1, 1, 1, 100]`, amount 85, fee 10). -/
theorem getTxParts_planner_correctness_witness :
    ((85 : Nat) < 2 ^ 64 ∧ (10 : Nat) < 2 ^ 64) ∧
    (∀ e, getTxParts 0 [1, 1, 1, 100] 85 10 "addr" = .error e →
        e = .InsufficientBalance ∧
        0 < 85 + 10 ∧
        ∀ j < (chunks3 [1, 1, 1, 100]).length,
          fadd (((chunks3 [1, 1, 1, 100]).getD j []).foldl fadd 0)
              (prefixBal 10 0 ((chunks3 [1, 1, 1, 100]).take j)) < fadd 85 10) :=
  ⟨by constructor <;> decide,
   (getTxParts_planner_correctness 0 [1, 1, 1, 100] 85 10 "addr"
      (by decide) (by decide)).2⟩

/-- C1 counterexample to the claim as stated: on this state `get_tx_parts`
fails with `InsufficientBalance`, yet the subset `[100]` of `1 + 3·0` usable
notes plus the account balance does satisfy `≥ amount + (0+1)·fee` — the
planner only inspects chunk-aligned prefixes of the engine's note order, so
its failure does not witness global insufficiency. -/
theorem getTxParts_subset_counterexample :
    getTxParts 0 [1, 1, 1, 100] 85 10 "addr" = .error .InsufficientBalance ∧
    List.Sublist [100] [1, 1, 1, 100] ∧
    List.length [100] = 1 + 3 * 0 ∧
    85 + (0 + 1) * 10 ≤ 0 + List.sum [100] := by
  refine ⟨by rfl, ?_, by rfl, by norm_num⟩
  decide

example :
    getTxParts 0 [1, 1, 1, 100] 85 10 "addr" = .error .InsufficientBalance := by
  rfl

example :
    getTxParts 1000000 [] 500 100 "addr" = .ok [(some "addr", 500)] := by
  rfl

example :
    getTxParts 40 [100, 100, 100] 150 10 "addr" =
      .ok [(some "addr", 150)] := by
  rfl

/-! ## Transfer pipeline types (`src/cloud/types.rs`)

The source tree names the transfer-part key `request_id` in `cloud/mod.rs` and
`transaction_id` in `cloud/types.rs`; here it is `requestId`.  The Rust field
`to` is named `toAddr` (`to` is reserved in Lean). -/

/-- `TransferPart` from `src/cloud/types.rs`. -/
structure TransferPart where
  id : String
  requestId : String
  accountId : String
  amount : Nat
  fee : Nat
  toAddr : Option String
  status : TransferStatus
  jobId : Option String
  txHash : Option String
  dependsOn : Option String
  attempt : Nat
  timestamp : Nat
  deriving DecidableEq, Repr

/-- `TransferTask` from `src/cloud/types.rs`. -/
structure TransferTask where
  requestId : String
  parts : List String
  deriving DecidableEq, Repr

/-! ## Transfer intake (`ZkBobCloud::transfer`, `src/cloud/mod.rs`) -/

/-- One transfer part as built in the loop of `ZkBobCloud::transfer`
(`src/cloud/mod.rs`): part `i` gets id `"<request_id>.<i>"`, status `New`, and
`depends_on = Some("<request_id>.<i-1>")` exactly when `i > 0`. -/
def mkTransferPart (requestId accountId : String) (fee ts : Nat)
    (i : Nat) (txPart : Option String × Nat) : TransferPart :=
  { id := requestId ++ "." ++ toString i
    requestId := requestId
    accountId := accountId
    amount := txPart.2
    fee := fee
    toAddr := txPart.1
    status := .New
    jobId := none
    txHash := none
    dependsOn := if 0 < i then some (requestId ++ "." ++ toString (i - 1)) else none
    attempt := 0
    timestamp := ts }

/-- The part list built by `ZkBobCloud::transfer` from the planner output. -/
def transferBuildParts (requestId accountId : String) (fee ts : Nat)
    (txParts : List (Option String × Nat)) : List TransferPart :=
  txParts.enum.map fun p => mkTransferPart requestId accountId fee ts p.1 p.2

/-- A value in the `Tasks` column of the cloud database (`src/cloud/db.rs`
stores both the task row, keyed by request id, and the part rows, keyed by
part id, in the same column). -/
inductive TasksValue where
  | task (t : TransferTask)
  | part (p : TransferPart)
  deriving DecidableEq, Repr

/-- The cloud database's `Tasks` column, as a key-value map. -/
structure CloudDb where
  tasks : String → Option TasksValue

/-- A single key-value put into the `Tasks` column. -/
def CloudDb.put (db : CloudDb) (k : String) (v : TasksValue) : CloudDb :=
  { tasks := fun q => if q = k then some v else db.tasks q }

/-- `Db::task_exists` from `src/cloud/db.rs`: key presence in the `Tasks`
column. -/
def CloudDb.taskExists (db : CloudDb) (id : String) : Bool :=
  (db.tasks id).isSome

/-- `Db::save_task` from `src/cloud/db.rs`: one atomic transaction writing the
task row and every part row. -/
def CloudDb.saveTask (db : CloudDb) (task : TransferTask)
    (parts : List TransferPart) : CloudDb :=
  parts.foldl (fun d p => d.put p.id (.part p)) (db.put task.requestId (.task task))

/-- The transfer request handed to `ZkBobCloud::transfer` (`Transfer` in
`src/cloud/types.rs`). -/
structure TransferRequest where
  id : String
  accountId : String
  amount : Nat
  toAddr : String
  deriving DecidableEq, Repr

/-- Outcomes of the effectful collaborators of `ZkBobCloud::transfer`: account
lookup, account sync, the planner call, the queue sends, the database write,
and the current timestamp. -/
structure TransferEnv where
  getAccount : Except CloudError Unit
  syncResult : Except CloudError Unit
  txParts : Except CloudError (List (Option String × Nat))
  queueSend : String → Except CloudError Unit
  saveResult : Except CloudError Unit
  now : Nat

/-- The enqueue loop at the end of `ZkBobCloud::transfer`: sends part ids in
order, stopping at the first failure; returns the outcome and the ids sent. -/
def sendAll (env : TransferEnv) : List String → Except CloudError Unit × List String
  | [] => (.ok (), [])
  | id :: rest =>
    match env.queueSend id with
    | .error e => (.error e, [])
    | .ok _ =>
      let r := sendAll env rest
      (r.1, id :: r.2)

/-- The tail of `ZkBobCloud::transfer` after the two request-id checks:
account lookup, sync, planning, atomic persistence, enqueueing.  Returns the
call result, the resulting database state and the part ids enqueued. -/
def transferAfterChecks (db : CloudDb) (env : TransferEnv) (relayerFee : Nat)
    (req : TransferRequest) :
    Except CloudError String × CloudDb × List String :=
  match env.getAccount with
  | .error e => (.error e, db, [])
  | .ok _ =>
  match env.syncResult with
  | .error e => (.error e, db, [])
  | .ok _ =>
  match env.txParts with
  | .error e => (.error e, db, [])
  | .ok txParts =>
    let parts := transferBuildParts req.id req.accountId relayerFee env.now txParts
    let task : TransferTask := { requestId := req.id, parts := parts.map (fun p => p.id) }
    match env.saveResult with
    | .error e => (.error e, db, [])
    | .ok _ =>
      let db1 := db.saveTask task parts
      let r := sendAll env (parts.map (fun p => p.id))
      match r.1 with
      | .error e => (.error e, db1, r.2)
      | .ok _ => (.ok req.id, db1, r.2)

/-- Rust `request.id.contains(char)` specialised to the dot separator: some
character of the string is `'.'` (code point 46). -/
def containsDot (s : String) : Bool :=
  s.data.any fun c => c = Char.ofNat 46

/-- `ZkBobCloud::transfer` from `src/cloud/mod.rs`: reject a request id that
contains a dot, then a request id whose task row already exists, then run the
planning/persist/enqueue pipeline. -/
def transfer (db : CloudDb) (env : TransferEnv) (relayerFee : Nat)
    (req : TransferRequest) :
    Except CloudError String × CloudDb × List String :=
  if containsDot req.id then (.error .InvalidTransactionId, db, [])
  else if db.taskExists req.id then (.error .DuplicateTransactionId, db, [])
  else transferAfterChecks db env relayerFee req

/-! ## Submit worker (`process`, `src/cloud/send_worker.rs`) -/

/-- `ProcessResult` from `src/cloud/send_worker.rs`: what the worker does with
the queue message (`delete`), whether the id is forwarded to the status queue
(`checkStatus`) and the part row to persist, if any (`update`). -/
structure ProcessResult where
  delete : Bool
  checkStatus : Bool
  update : Option TransferPart
  deriving DecidableEq, Repr

/-- `ProcessResult::retry_later`: leave the message for visibility-expiry
re-delivery, touch nothing. -/
def ProcessResult.retryLater : ProcessResult :=
  { delete := false, checkStatus := false, update := none }

/-- `ProcessResult::delete_from_queue`. -/
def ProcessResult.deleteFromQueue : ProcessResult :=
  { delete := true, checkStatus := false, update := none }

/-- `ProcessResult::repeat_check_status`. -/
def ProcessResult.repeatCheckStatus : ProcessResult :=
  { delete := true, checkStatus := true, update := none }

/-- `ProcessResult::success`. -/
def ProcessResult.success (part : TransferPart) (jobId : String) (now : Nat) :
    ProcessResult :=
  { delete := true
    checkStatus := true
    update := some { part with
      status := .Relaying, jobId := some jobId, attempt := 0, timestamp := now } }

/-- `ProcessResult::error_without_retry`. -/
def ProcessResult.errorWithoutRetry (part : TransferPart) (err : CloudError)
    (now : Nat) : ProcessResult :=
  { delete := true
    checkStatus := false
    update := some { part with status := .Failed err, timestamp := now } }

/-- `ProcessResult::error_with_retry_attempts`. -/
def ProcessResult.errorWithRetryAttempts (part : TransferPart) (err : CloudError)
    (maxAttempts : Nat) (now : Nat) : ProcessResult :=
  if maxAttempts ≤ part.attempt then ProcessResult.errorWithoutRetry part err now
  else
    { delete := false
      checkStatus := false
      update := some { part with attempt := part.attempt + 1 } }

/-- Outcomes of the effectful collaborators of the submit worker's `process`:
the part-row read, predecessor-status reads, account-id parsing, account
lookup, transfer construction, proving, relayer submission, and the clock. -/
structure SendWorkerEnv where
  getPart : Except CloudError TransferPart
  partStatus : String → Except CloudError TransferStatus
  parseAccountId : String → Bool
  getAccount : Except CloudError Unit
  createTransfer : Except CloudError Unit
  prove : Except String Unit
  sendTransactions : Except CloudError String
  now : Nat

/-- The steps of `process` after the status and predecessor gates: account-id
parse, account lookup, transfer construction, proving, relayer submission. -/
def sendWorkerSubmit (env : SendWorkerEnv) (part : TransferPart)
    (maxAttempts : Nat) : ProcessResult :=
  if env.parseAccountId part.accountId = false then
    .errorWithoutRetry part .IncorrectAccountId env.now
  else
    match env.getAccount with
    | .error e => .errorWithRetryAttempts part e maxAttempts env.now
    | .ok _ =>
    match env.createTransfer with
    | .error e => .errorWithRetryAttempts part e maxAttempts env.now
    | .ok _ =>
    match env.prove with
    | .error _ =>
      .errorWithRetryAttempts part (.InternalError "prove error") maxAttempts env.now
    | .ok _ =>
    match env.sendTransactions with
    | .error e => .errorWithRetryAttempts part e maxAttempts env.now
    | .ok jobId => .success part jobId env.now

/-- `process` from `src/cloud/send_worker.rs`: load the part; gate on its own
status, then on the predecessor status named by `depends_on`; then submit. -/
def sendWorkerProcess (env : SendWorkerEnv) (maxAttempts : Nat) : ProcessResult :=
  match env.getPart with
  | .error _ => .deleteFromQueue
  | .ok part =>
    match part.status with
    | .New =>
      (match part.dependsOn with
       | some dep =>
         (match env.partStatus dep with
          | .ok .Mining | .ok .Done => sendWorkerSubmit env part maxAttempts
          | .ok (.Failed _) => .errorWithoutRetry part .PreviousTxFailed env.now
          | .ok _ => .retryLater
          | .error e => .errorWithRetryAttempts part e maxAttempts env.now)
       | none => sendWorkerSubmit env part maxAttempts)
    | .Relaying | .Mining => .repeatCheckStatus
    | _ => .deleteFromQueue

/-- C2: transfer parts are chained — part `i` (for `i ≥ 1`) of a persisted
transfer has `depends_on` equal to the id of part `i−1`, and part 0 has
`depends_on = None` — and the submit worker's `process`, upon finding a `New`
part whose predecessor status reads back as `New` or `Relaying`, returns
`retry_later`: no part update is persisted (the part stays `New`), the id is
not forwarded to the status queue, and the queue message is not deleted, so
visibility expiry re-delivers it later. -/
theorem transfer_ordering_within_request
    (requestId accountId : String) (fee ts : Nat)
    (txParts : List (Option String × Nat))
    (env : SendWorkerEnv) (maxAttempts : Nat) (part : TransferPart)
    (dep : String) (s : TransferStatus)
    (hget : env.getPart = .ok part) (hnew : part.status = .New)
    (hdep : part.dependsOn = some dep) (hst : env.partStatus dep = .ok s)
    (hs : s = .New ∨ s = .Relaying) :
    (∀ i, ∀ h : i < (transferBuildParts requestId accountId fee ts txParts).length,
      ((transferBuildParts requestId accountId fee ts txParts).get ⟨i, h⟩).dependsOn =
        if 0 < i then
          some (((transferBuildParts requestId accountId fee ts txParts).get
            ⟨i - 1, by omega⟩).id)
        else none) ∧
    sendWorkerProcess env maxAttempts =
      { delete := false, checkStatus := false, update := none } := by
  constructor
  · intro i h
    rcases Nat.eq_zero_or_pos i with hi | hi
    · subst hi
      simp [transferBuildParts, mkTransferPart]
    · simp only [transferBuildParts, List.get_eq_getElem, List.getElem_map,
        List.getElem_enum, mkTransferPart, hi, if_pos]
  · simp only [sendWorkerProcess, hget, hnew, hdep, hst]
    rcases hs with rfl | rfl <;> rfl

/-- C2 witness: the ordering-and-gate theorem applied to a two-part plan and a
concrete worker environment whose predecessor reads back as `Relaying`. -/
theorem transfer_ordering_within_request_witness :
    (∀ i, ∀ h : i < (transferBuildParts "r" "a" 10 0 [(none, 90), (some "x", 150)]).length,
      ((transferBuildParts "r" "a" 10 0 [(none, 90), (some "x", 150)]).get ⟨i, h⟩).dependsOn =
        if 0 < i then
          some (((transferBuildParts "r" "a" 10 0
            [(none, 90), (some "x", 150)]).get ⟨i - 1, by omega⟩).id)
        else none) ∧
    sendWorkerProcess
      { getPart := .ok
          { id := "r.1", requestId := "r", accountId := "a", amount := 150, fee := 10
            toAddr := some "x", status := .New, jobId := none, txHash := none
            dependsOn := some "r.0", attempt := 0, timestamp := 0 }
        partStatus := fun _ => .ok .Relaying
        parseAccountId := fun _ => true
        getAccount := .ok ()
        createTransfer := .ok ()
        prove := .ok ()
        sendTransactions := .ok "job"
        now := 7 } 3 =
      { delete := false, checkStatus := false, update := none } :=
  transfer_ordering_within_request "r" "a" 10 0 [(none, 90), (some "x", 150)]
    _ 3 _ "r.0" .Relaying rfl rfl rfl rfl (Or.inr rfl)

/-- C4: `ZkBobCloud::transfer` rejects a request whose id contains a dot with
`InvalidTransactionId` and a request whose id already keys a task row with
`DuplicateTransactionId`, in both cases leaving the task database unchanged
and enqueueing nothing; any other request id proceeds past the two checks into
the sync/plan/persist/enqueue pipeline. -/
theorem transfer_intake_checks (db : CloudDb) (env : TransferEnv)
    (relayerFee : Nat) (req : TransferRequest) :
    (containsDot req.id = true →
      transfer db env relayerFee req = (.error .InvalidTransactionId, db, [])) ∧
    (containsDot req.id = false → db.taskExists req.id = true →
      transfer db env relayerFee req = (.error .DuplicateTransactionId, db, [])) ∧
    (containsDot req.id = false → db.taskExists req.id = false →
      transfer db env relayerFee req = transferAfterChecks db env relayerFee req) := by
  refine ⟨?_, ?_, ?_⟩
  · intro h
    simp [transfer, h]
  · intro h1 h2
    simp [transfer, h1, h2]
  · intro h1 h2
    simp [transfer, h1, h2]

/-- C4 witness: the intake theorem applied to a dotted request id against an
empty task database (and, for the duplicate branch, to a database already
holding the request id). -/
theorem transfer_intake_checks_witness :
    (containsDot "b.0" = true ∧
      transfer { tasks := fun _ => none }
        { getAccount := .ok (), syncResult := .ok (), txParts := .ok []
          queueSend := fun _ => .ok (), saveResult := .ok (), now := 0 } 100
        { id := "b.0", accountId := "a", amount := 5, toAddr := "x" } =
        (.error .InvalidTransactionId, { tasks := fun _ => none }, [])) ∧
    (containsDot "b" = false ∧
      CloudDb.taskExists
        { tasks := fun q => if q = "b" then some (.task { requestId := "b", parts := [] })
            else none } "b" = true ∧
      transfer
        { tasks := fun q => if q = "b" then some (.task { requestId := "b", parts := [] })
            else none }
        { getAccount := .ok (), syncResult := .ok (), txParts := .ok []
          queueSend := fun _ => .ok (), saveResult := .ok (), now := 0 } 100
        { id := "b", accountId := "a", amount := 5, toAddr := "x" } =
        (.error .DuplicateTransactionId,
          { tasks := fun q => if q = "b" then some (.task { requestId := "b", parts := [] })
              else none }, [])) := by
  constructor
  · exact ⟨by decide,
      (transfer_intake_checks { tasks := fun _ => none } _ 100
        { id := "b.0", accountId := "a", amount := 5, toAddr := "x" }).1 (by decide)⟩
  · exact ⟨by decide, by decide,
      (transfer_intake_checks _ _ 100
        { id := "b", accountId := "a", amount := 5, toAddr := "x" }).2.1
        (by decide) (by decide)⟩


/-! ## Transaction parser (`src/account/tx_parser.rs`)

The wallet-crypto library calls (`cipher::decrypt_out`, `cipher::decrypt_in`,
`derive_key_p_d`, `MemoDelegatedDeposit::read`, note/account hashing) are
passed in as an environment with `eta` and the pool parameters already
applied; memo bytes are `List Nat`. -/

/-- A shielded note (`Note<Fr>`): diversifier `d`, receiver key `pd`,
balance `b` (field representatives). -/
structure Note where
  d : Nat
  pd : Nat
  b : Nat
  deriving DecidableEq, Repr

/-- A decrypted account record (`Account<Fr>`); only the balance is relevant
here. -/
structure AccountState where
  b : Nat
  deriving DecidableEq, Repr

/-- `IndexedNote` from `src/account/tx_parser.rs`. -/
structure IndexedNote where
  index : Nat
  note : Note
  deriving DecidableEq, Repr

/-- `StateUpdate` from `src/account/tx_parser.rs`. -/
structure StateUpdate where
  newLeafs : List (Nat × List Nat)
  newCommitments : List (Nat × Nat)
  newAccounts : List (Nat × AccountState)
  newNotes : List (List (Nat × Note))
  deriving DecidableEq, Repr

/-- `DecMemo` from `src/account/tx_parser.rs`. -/
structure DecMemo where
  index : Nat
  acc : Option AccountState
  inNotes : List IndexedNote
  outNotes : List IndexedNote
  txHash : Option String
  deriving DecidableEq, Repr

/-- `ParseResult` from `src/account/tx_parser.rs`. -/
structure ParseResult where
  decryptedMemos : List DecMemo
  stateUpdate : StateUpdate
  deriving DecidableEq, Repr

/-- The all-empty `ParseResult` (`Default::default()`). -/
def emptyParseResult : ParseResult :=
  { decryptedMemos := []
    stateUpdate := { newLeafs := [], newCommitments := [], newAccounts := [], newNotes := [] } }

/-- `ParseError` from `src/account/tx_parser.rs`. -/
inductive ParseError where
  | NoPfx (idx : Nat)
  | IncorrectPfx (idx : Nat) (got : Nat) (maxAllowed : Nat)
  deriving DecidableEq, Repr

/-- One entry of a delegated-deposit memo (`MemoDelegatedDeposit`): receiver
diversifier, stored receiver key, and the note it denominates. -/
structure DelegatedDeposit where
  receiverD : Nat
  receiverP : Nat
  note : Note
  deriving DecidableEq, Repr

/-- The wallet-library collaborators of the parser, with the viewing key and
pool parameters already applied. -/
structure ParseEnv where
  decryptOut : List Nat → Option (AccountState × List Note)
  decryptIn : List Nat → List (Option Note)
  deriveKeyPd : Nat → Nat
  delegatedDeposits : List Nat → Nat → List DelegatedDeposit
  zeroAccountHash : Nat
  noteHash : Note → Nat

/-- Little-endian number from bytes. -/
def fromLeBytes (l : List Nat) : Nat :=
  l.foldr (fun b acc => b + 256 * acc) 0

/-- Rust `chunks(32)` over a byte slice. -/
def chunks32 (l : List Nat) : List (List Nat) :=
  if l.isEmpty then []
  else l.take 32 :: chunks32 (l.drop 32)
termination_by l.length
decreasing_by
  simp only [List.length_drop]
  cases l with
  | nil => simp_all
  | cons a t => simp; omega

/-- `parse_prefix` from `src/account/tx_parser.rs`: the little-endian `u32` in
the first four memo bytes; top bit (`DELEGATED_DEPOSIT_FLAG = 1 << 31`) set
means a delegated-deposit packet, and is cleared from the item count. -/
def parsePfx (memo : List Nat) : Bool × Nat :=
  let p := fromLeBytes (memo.take 4)
  if 0 < p &&& 2147483648 then (true, p ^^^ 2147483648) else (false, p)

/-- `parse_tx` from `src/account/tx_parser.rs`.  `OUT + 1 = 128`. -/
def parseTx (env : ParseEnv) (tx : Transaction) : Except ParseError ParseResult :=
  if tx.memo.length < 4 then .error (.NoPfx tx.index)
  else if (parsePfx tx.memo).1 then
    -- delegated-deposit case
    let deposits := env.delegatedDeposits (tx.memo.drop 4) (parsePfx tx.memo).2
    let inNotesIndexed : List IndexedNote := deposits.enum.filterMap fun p =>
      if p.2.receiverP = env.deriveKeyPd p.2.receiverD then
        some { index := tx.index + 1 + p.1, note := p.2.note }
      else none
    let inNotes := inNotesIndexed.map fun n => (n.index, n.note)
    let hashes := env.zeroAccountHash :: deposits.map fun d => env.noteHash d.note
    if inNotes.isEmpty then
      .ok { emptyParseResult with
            stateUpdate := { emptyParseResult.stateUpdate with
                             newCommitments := [(tx.index, tx.commitment)] } }
    else
      .ok { decryptedMemos :=
              [{ index := tx.index
                 acc := none
                 inNotes := inNotesIndexed
                 outNotes := []
                 txHash := some tx.txHash }]
            stateUpdate := { newLeafs := [(tx.index, hashes)]
                             newCommitments := []
                             newAccounts := []
                             newNotes := [inNotes] } }
  else if (parsePfx tx.memo).2 ≤ 128 then
    -- regular case
    let numHashes := (parsePfx tx.memo).2
    let hashes := ((chunks32 (tx.memo.drop 4)).take numHashes).map
      fun c => fromLeBytes c % frModulus
    match env.decryptOut tx.memo with
    | some (account, notes) =>
      let outNotes := notes.enum.map fun p => (tx.index + 1 + p.1, p.2)
      let inNotes := notes.enum.filterMap fun p =>
        if p.2.pd = env.deriveKeyPd p.2.d then some (tx.index + 1 + p.1, p.2) else none
      .ok { decryptedMemos :=
              [{ index := tx.index
                 acc := some account
                 inNotes := inNotes.map fun q => { index := q.1, note := q.2 }
                 outNotes := outNotes.map fun q => { index := q.1, note := q.2 }
                 txHash := some tx.txHash }]
            stateUpdate := { newLeafs := [(tx.index, hashes)]
                             newCommitments := []
                             newAccounts := [(tx.index, account)]
                             newNotes := [inNotes] } }
    | none =>
      let inNotes := (env.decryptIn tx.memo).enum.filterMap fun p =>
        match p.2 with
        | some note =>
          if note.pd = env.deriveKeyPd note.d then some (tx.index + 1 + p.1, note)
          else none
        | none => none
      if inNotes.isEmpty then
        .ok { emptyParseResult with
              stateUpdate := { emptyParseResult.stateUpdate with
                               newCommitments := [(tx.index, tx.commitment)] } }
      else
        .ok { decryptedMemos :=
                [{ index := tx.index
                   acc := none
                   inNotes := inNotes.map fun q => { index := q.1, note := q.2 }
                   outNotes := []
                   txHash := some tx.txHash }]
              stateUpdate := { newLeafs := [(tx.index, hashes)]
                               newCommitments := []
                               newAccounts := []
                               newNotes := [inNotes] } }
  else
    .error (.IncorrectPfx tx.index (parsePfx tx.memo).2 128)

/-- `Result::is_ok` on the embedded `Except`. -/
def exceptIsOk : Except ParseError ParseResult → Bool
  | .ok _ => true
  | .error _ => false

/-- The per-record result under the success assumption (`Result::unwrap`,
empty on the unreachable error case). -/
def okParse : Except ParseError ParseResult → ParseResult
  | .ok r => r
  | .error _ => emptyParseResult

/-- Concatenation of two `ParseResult`s, as in the fold of `parse_txs`. -/
def prAppend (a b : ParseResult) : ParseResult :=
  { decryptedMemos := a.decryptedMemos ++ b.decryptedMemos
    stateUpdate := {
      newLeafs := a.stateUpdate.newLeafs ++ b.stateUpdate.newLeafs
      newCommitments := a.stateUpdate.newCommitments ++ b.stateUpdate.newCommitments
      newAccounts := a.stateUpdate.newAccounts ++ b.stateUpdate.newAccounts
      newNotes := a.stateUpdate.newNotes ++ b.stateUpdate.newNotes } }

/-- `parse_txs` from `src/account/tx_parser.rs`: parse each record
independently, partition into successes and failures; any failure rejects the
whole batch with the single `StateSyncError`, otherwise fold-concatenate the
per-record results in order. -/
def parseTxs (env : ParseEnv) (txs : List Transaction) : Except CloudError ParseResult :=
  let results := txs.map (parseTx env)
  let parseResults := results.filter exceptIsOk
  let parseErrors := results.filter fun r => !(exceptIsOk r)
  if parseErrors.isEmpty then
    .ok (parseResults.foldl
      (fun acc r => match r with | .ok pr => prAppend acc pr | .error _ => acc)
      emptyParseResult)
  else
    .error .StateSyncError

theorem foldl_prAppend_spec (rs : List ParseResult) :
    ∀ acc, rs.foldl prAppend acc =
      { decryptedMemos := acc.decryptedMemos ++ (rs.map fun r => r.decryptedMemos).flatten
        stateUpdate :=
          { newLeafs :=
              acc.stateUpdate.newLeafs ++ (rs.map fun r => r.stateUpdate.newLeafs).flatten
            newCommitments :=
              acc.stateUpdate.newCommitments ++
                (rs.map fun r => r.stateUpdate.newCommitments).flatten
            newAccounts :=
              acc.stateUpdate.newAccounts ++
                (rs.map fun r => r.stateUpdate.newAccounts).flatten
            newNotes :=
              acc.stateUpdate.newNotes ++
                (rs.map fun r => r.stateUpdate.newNotes).flatten } } := by
  induction rs with
  | nil => intro acc; simp
  | cons r rest ih =>
    intro acc
    rw [List.foldl_cons, ih]
    simp [prAppend]

theorem foldl_step_ok (rs : List (Except ParseError ParseResult))
    (h : ∀ r ∈ rs, exceptIsOk r = true) :
    ∀ acc,
      rs.foldl (fun acc r => match r with | .ok pr => prAppend acc pr | .error _ => acc)
        acc =
      (rs.map okParse).foldl prAppend acc := by
  induction rs with
  | nil => intro acc; rfl
  | cons r rest ih =>
    intro acc
    cases r with
    | ok pr =>
      rw [List.foldl_cons, List.map_cons, List.foldl_cons]
      exact ih (fun x hx => h x (by simp [hx])) _
    | error e =>
      exact absurd (h (.error e) (by simp)) (by simp [exceptIsOk])

/-- C6: a record fails to parse exactly when its memo is shorter than 4 bytes
or a regular-case item count exceeds `OUT + 1 = 128`; `parse_txs` fails exactly
when some record of the batch fails, every failure is the single
`StateSyncError` with nothing delivered, and when every record parses the
result is the in-order concatenation of the per-record memos and state-update
deltas. -/
theorem parse_txs_all_or_nothing (env : ParseEnv) (txs : List Transaction) :
    (∀ tx : Transaction,
      exceptIsOk (parseTx env tx) = false ↔
        (tx.memo.length < 4 ∨
          ((parsePfx tx.memo).1 = false ∧ 128 < (parsePfx tx.memo).2))) ∧
    ((∃ tx ∈ txs, exceptIsOk (parseTx env tx) = false) ↔
      parseTxs env txs = .error .StateSyncError) ∧
    (∀ e, parseTxs env txs = .error e → e = .StateSyncError) ∧
    ((∀ tx ∈ txs, exceptIsOk (parseTx env tx) = true) →
      parseTxs env txs = .ok
        { decryptedMemos :=
            (txs.map fun tx => (okParse (parseTx env tx)).decryptedMemos).flatten
          stateUpdate :=
            { newLeafs :=
                (txs.map fun tx =>
                  (okParse (parseTx env tx)).stateUpdate.newLeafs).flatten
              newCommitments :=
                (txs.map fun tx =>
                  (okParse (parseTx env tx)).stateUpdate.newCommitments).flatten
              newAccounts :=
                (txs.map fun tx =>
                  (okParse (parseTx env tx)).stateUpdate.newAccounts).flatten
              newNotes :=
                (txs.map fun tx =>
                  (okParse (parseTx env tx)).stateUpdate.newNotes).flatten } }) := by
  have hchar : ∀ tx : Transaction,
      exceptIsOk (parseTx env tx) = false ↔
        (tx.memo.length < 4 ∨
          ((parsePfx tx.memo).1 = false ∧ 128 < (parsePfx tx.memo).2)) := by
    intro tx
    by_cases h4 : tx.memo.length < 4
    · simp [parseTx, h4, exceptIsOk]
    · by_cases hd : (parsePfx tx.memo).1 = true
      · have hok : exceptIsOk (parseTx env tx) = true := by
          rw [parseTx, if_neg h4, if_pos hd]
          dsimp only
          rw [apply_ite exceptIsOk]
          simp [exceptIsOk]
        simp [hok, h4, hd]
      · by_cases hle : (parsePfx tx.memo).2 ≤ 128
        · have hok : exceptIsOk (parseTx env tx) = true := by
            rw [parseTx, if_neg h4, if_neg hd, if_pos hle]
            dsimp only
            cases env.decryptOut tx.memo with
            | some pair => cases pair; rfl
            | none =>
              rw [apply_ite exceptIsOk]
              simp [exceptIsOk]
          simp [hok, h4]
          omega
        · have herr : exceptIsOk (parseTx env tx) = false := by
            rw [parseTx, if_neg h4, if_neg hd, if_neg hle]
            rfl
          have hd2 : (parsePfx tx.memo).1 = false := by simpa using hd
          simp [herr, h4, hd2]
          omega
  have herrNonempty :
      (∃ tx ∈ txs, exceptIsOk (parseTx env tx) = false) ↔
        ((txs.map (parseTx env)).filter fun r => !(exceptIsOk r)) ≠ [] := by
    constructor
    · intro ⟨tx, htx, hbad⟩ hnil
      have hmem : parseTx env tx ∈
          (txs.map (parseTx env)).filter fun r => !(exceptIsOk r) := by
        apply List.mem_filter.mpr
        exact ⟨List.mem_map_of_mem _ htx, by simp [hbad]⟩
      rw [hnil] at hmem
      exact absurd hmem (List.not_mem_nil _)
    · intro h
      rcases List.exists_mem_of_ne_nil _ h with ⟨r, hr⟩
      obtain ⟨hrmem, hrbad⟩ := List.mem_filter.mp hr
      obtain ⟨tx, htx, rfl⟩ := List.mem_map.mp hrmem
      exact ⟨tx, htx, by simpa using hrbad⟩
  refine ⟨hchar, ?_, ?_, ?_⟩
  · rw [herrNonempty, parseTxs]
    constructor
    · intro h
      rw [if_neg (by simp [List.isEmpty_iff, h])]
    · intro h
      intro hempty
      rw [if_pos (by simp [List.isEmpty_iff, hempty])] at h
      exact Except.noConfusion h
  · intro e he
    rw [parseTxs] at he
    split at he
    · exact Except.noConfusion he
    · exact (Except.error.inj he).symm
  · intro hall
    have hallr : ∀ r ∈ txs.map (parseTx env), exceptIsOk r = true := by
      intro r hr
      obtain ⟨tx, htx, rfl⟩ := List.mem_map.mp hr
      exact hall tx htx
    rw [parseTxs]
    rw [if_pos (by
      rw [List.isEmpty_iff]
      apply List.filter_eq_nil_iff.mpr
      intro r hr
      simp [hallr r hr])]
    rw [List.filter_eq_self.mpr (fun r hr => hallr r hr)]
    rw [foldl_step_ok _ hallr, foldl_prAppend_spec]
    simp only [emptyParseResult, List.nil_append, List.map_map]
    exact rfl

/-! ## History classification (`src/account/history.rs`) -/

/-- `HistoryTxType` from `src/account/history.rs`. -/
inductive HistoryTxType where
  | Deposit
  | Withdrawal
  | TransferIn
  | TransferOut
  | ReturnedChange
  | AggregateNotes
  | DirectDeposit
  deriving DecidableEq, Repr

/-- `Web3TxType` from `src/web3/cached.rs`: classification of the pool call
found in the transaction calldata. -/
inductive Web3TxType where
  | Deposit
  | DepositPermittable
  | Transfer
  | Withdrawal
  | DirectDeposit
  deriving DecidableEq, Repr

/-- `TxWeb3Info` from `src/web3/cached.rs`: chain metadata for one tx hash. -/
structure TxWeb3Info where
  txType : Web3TxType
  timestamp : Nat
  fee : Option Nat
  tokenAmount : Option Int
  deriving DecidableEq, Repr

/-- `HistoryTx` from `src/account/history.rs` (the Rust field `to` is
`toAddr`). -/
structure HistoryTx where
  txType : HistoryTxType
  txHash : String
  timestamp : Nat
  amount : Nat
  fee : Nat
  toAddr : Option String
  transactionId : Option String
  deriving DecidableEq, Repr

/-- Rust `as u64` on a possibly negative `i128`-style value: wrap modulo
`2^64`. -/
def intAsU64 (x : Int) : Nat :=
  (x.emod (2 ^ 64)).toNat

/-- `Num<Fr>::as_u64_amount` (`src/helpers.rs`): the low 64 bits of the
canonical representative. -/
def asU64Amount (x : Nat) : Nat :=
  x % 2 ^ 64

/-- `HistoryTx::parse` from `src/account/history.rs`.  `fmt` is the wallet
library's `format_address` applied to a note's `(d, p_d)`; the Rust
`Option::unwrap` calls are modelled as defaults (in Rust they panic when the
cached metadata lacks the field). -/
def historyParse (fmt : Nat → Nat → String) (memo : DecMemo) (info : TxWeb3Info)
    (transactionId : Option String) (lastAccount : Option AccountState) :
    List HistoryTx :=
  let txHash := memo.txHash.getD ""
  match info.txType with
  | .Deposit =>
    [{ txType := .Deposit, txHash := txHash, timestamp := info.timestamp
       amount := intAsU64 (info.tokenAmount.getD 0), fee := info.fee.getD 0
       toAddr := none, transactionId := transactionId }]
  | .DepositPermittable =>
    [{ txType := .Deposit, txHash := txHash, timestamp := info.timestamp
       amount := intAsU64 (info.tokenAmount.getD 0), fee := info.fee.getD 0
       toAddr := none, transactionId := transactionId }]
  | .Transfer =>
    (if memo.inNotes.isEmpty ∧ memo.outNotes.isEmpty then
      [{ txType := .AggregateNotes, txHash := txHash, timestamp := info.timestamp
         amount := asU64Amount (fsub ((memo.acc.getD { b := 0 }).b)
           ((lastAccount.map fun a => a.b).getD 0))
         fee := info.fee.getD 0, toAddr := none, transactionId := transactionId }]
    else []) ++
    (memo.inNotes.map fun note =>
      { txType :=
          if memo.outNotes.any fun outNote => outNote.index = note.index then
            HistoryTxType.ReturnedChange
          else
            HistoryTxType.TransferIn
        txHash := txHash, timestamp := info.timestamp
        amount := asU64Amount note.note.b, fee := info.fee.getD 0
        toAddr := some (fmt note.note.d note.note.pd)
        transactionId := transactionId }) ++
    ((memo.outNotes.filter fun outNote =>
        ¬ memo.inNotes.any fun inNote => inNote.index = outNote.index).map fun note =>
      { txType := HistoryTxType.TransferOut
        txHash := txHash, timestamp := info.timestamp
        amount := asU64Amount note.note.b, fee := info.fee.getD 0
        toAddr := some (fmt note.note.d note.note.pd)
        transactionId := transactionId })
  | .Withdrawal =>
    [{ txType := .Withdrawal, txHash := txHash, timestamp := info.timestamp
       amount := intAsU64 (-(((info.fee.getD 0 : Int)) + info.tokenAmount.getD 0))
       fee := info.fee.getD 0, toAddr := none, transactionId := transactionId }]
  | .DirectDeposit =>
    memo.inNotes.map fun note =>
      { txType := HistoryTxType.DirectDeposit
        txHash := txHash, timestamp := info.timestamp
        amount := asU64Amount note.note.b, fee := info.fee.getD 0
        toAddr := some (fmt note.note.d note.note.pd)
        transactionId := transactionId }

theorem length_filter_map_eq {α β : Type} (f : α → β) (p : β → Bool) (l : List α) :
    ((l.map f).filter p).length = (l.filter fun a => p (f a)).length := by
  induction l with
  | nil => rfl
  | cons a t ih =>
    rw [List.map_cons, List.filter_cons, List.filter_cons]
    cases p (f a) <;> simp [ih]

theorem filter_ite_singleton {α} (p : α → Bool) (c : Prop) [Decidable c] (x : α)
    (hx : p x = false) :
    (List.filter p (if c then [x] else [])).length = 0 := by
  split <;> simp [hx]

/-- C7: for a memo classified as `Transfer`, the number of `ReturnedChange`
entries is exactly the number of in-notes whose index also occurs among the
out-notes (each loopback note producing exactly one such entry), the
`TransferIn` entries correspond exactly to the non-loopback in-notes, and the
`TransferOut` entries correspond exactly to the out-notes whose index does not
occur among the in-notes — so a note appearing in both lists yields one
`ReturnedChange` entry and never a `TransferIn` or `TransferOut` entry. -/
theorem history_loopback_rule (fmt : Nat → Nat → String) (memo : DecMemo)
    (info : TxWeb3Info) (tid : Option String) (last : Option AccountState)
    (htype : info.txType = .Transfer) :
    ((historyParse fmt memo info tid last).filter fun e =>
        e.txType = HistoryTxType.ReturnedChange).length =
      (memo.inNotes.filter fun n =>
        memo.outNotes.any fun o => o.index = n.index).length ∧
    ((historyParse fmt memo info tid last).filter fun e =>
        e.txType = HistoryTxType.TransferIn).length =
      (memo.inNotes.filter fun n =>
        !(memo.outNotes.any fun o => o.index = n.index)).length ∧
    ((historyParse fmt memo info tid last).filter fun e =>
        e.txType = HistoryTxType.TransferOut).length =
      (memo.outNotes.filter fun o =>
        !(memo.inNotes.any fun i => i.index = o.index)).length := by
  cases info with
  | mk ty ts fee ta =>
  cases htype
  refine ⟨?_, ?_, ?_⟩ <;>
    simp only [historyParse, List.filter_append, List.length_append,
      length_filter_map_eq]
  · rw [filter_ite_singleton _ _ _ rfl]
    have h3 : List.filter
        (fun a => decide
          (HistoryTxType.TransferOut = HistoryTxType.ReturnedChange))
        (memo.outNotes.filter fun outNote =>
          decide (¬(memo.inNotes.any fun inNote =>
            decide (inNote.index = outNote.index)) = true)) = [] := by
      apply List.filter_eq_nil_iff.mpr
      intro a _
      simp
    rw [h3]
    simp only [List.length_nil, Nat.zero_add, Nat.add_zero]
    refine congrArg List.length (List.filter_congr ?_)
    intro n _
    cases h : memo.outNotes.any fun o => decide (o.index = n.index) <;> simp [h]
  · rw [filter_ite_singleton _ _ _ rfl]
    have h3 : List.filter
        (fun a => decide
          (HistoryTxType.TransferOut = HistoryTxType.TransferIn))
        (memo.outNotes.filter fun outNote =>
          decide (¬(memo.inNotes.any fun inNote =>
            decide (inNote.index = outNote.index)) = true)) = [] := by
      apply List.filter_eq_nil_iff.mpr
      intro a _
      simp
    rw [h3]
    simp only [List.length_nil, Nat.zero_add, Nat.add_zero]
    refine congrArg List.length (List.filter_congr ?_)
    intro n _
    cases h : memo.outNotes.any fun o => decide (o.index = n.index) <;> simp [h]
  · rw [filter_ite_singleton _ _ _ rfl]
    have h2 : List.filter
        (fun a => decide ((if (memo.outNotes.any fun outNote =>
            decide (outNote.index = a.index)) = true then
            HistoryTxType.ReturnedChange
          else HistoryTxType.TransferIn) = HistoryTxType.TransferOut))
        memo.inNotes = [] := by
      apply List.filter_eq_nil_iff.mpr
      intro a _
      cases h : memo.outNotes.any fun o => decide (o.index = a.index) <;> simp [h]
    rw [h2]
    simp only [List.length_nil, Nat.zero_add, Nat.add_zero]
    refine congrArg List.length ?_
    simp only [decide_True, List.filter_true]
    refine List.filter_congr ?_
    intro n _
    cases h : memo.inNotes.any fun i => decide (i.index = n.index) <;> simp [h]

/-! ## Transaction status response (`src/types.rs`) -/

/-- `TransactionStatusResponse` from `src/types.rs`. -/
structure TransactionStatusResponse where
  status : String
  timestamp : Nat
  txHash : Option String
  linkedTxHashes : Option (List String)
  failureReason : Option String
  deriving DecidableEq, Repr

/-- `matches!(status, Failed(_))`. -/
def TransferStatus.isFailedB : TransferStatus → Bool
  | .Failed _ => true
  | _ => false

/-- The tx-hash collection in `TransactionStatusResponse::from`: hashes of
parts that carry one and whose status is not `Mining`, in part order. -/
def collectTxHashes (parts : List TransferPart) : List String :=
  parts.filterMap fun part =>
    match part.txHash with
    | some h => if part.status ≠ TransferStatus.Mining then some h else none
    | none => none

/-- `TransactionStatusResponse::from` from `src/types.rs`.  The Rust code
indexes `parts.last().unwrap()` and `parts[0]`, so the empty input (which
panics in Rust) yields `none`; the `find?` unwrap in the failed branch is
modelled with the last part as default (unreachable: the last part is failed
there). -/
def txStatusResponseFrom : List TransferPart → Option TransactionStatusResponse
  | [] => none
  | p0 :: rest =>
    let hashes := collectTxHashes (p0 :: rest)
    let txHash := hashes.getLast?
    let linked := if txHash.isSome then some hashes.dropLast else none
    let last := (p0 :: rest).getLast (List.cons_ne_nil p0 rest)
    let sth : String × Nat × Option String :=
      match last.status with
      | .Done => (TransferStatus.Done.statusString, last.timestamp, none)
      | .Failed _ =>
        let firstFailed :=
          ((p0 :: rest).find? fun p => p.status.isFailedB).getD last
        (firstFailed.status.statusString, firstFailed.timestamp,
          firstFailed.status.failureReason)
      | _ =>
        match ((p0 :: rest).filter fun p =>
            p.status ≠ TransferStatus.New).getLast? with
        | some rp => (TransferStatus.Relaying.statusString, rp.timestamp, none)
        | none => (TransferStatus.New.statusString, p0.timestamp, none)
    some { status := sth.1
           timestamp := sth.2.1
           txHash := txHash
           linkedTxHashes := linked
           failureReason := sth.2.2 }

theorem find?_earliest {α} (p : α → Bool) :
    ∀ (l : List α) (x : α), l.find? p = some x →
      ∃ i, ∃ hi : i < l.length, l.get ⟨i, hi⟩ = x ∧ p x = true ∧
        ∀ j, ∀ hj : j < i, p (l.get ⟨j, by omega⟩) = false := by
  intro l
  induction l with
  | nil => intro x h; exact absurd h (by simp)
  | cons a t ih =>
    intro x h
    rw [List.find?_cons] at h
    cases hpa : p a with
    | true =>
      rw [hpa] at h
      obtain rfl := Option.some.inj h
      exact ⟨0, by simp, rfl, hpa, fun j hj => absurd hj (by omega)⟩
    | false =>
      rw [hpa] at h
      obtain ⟨i, hi, hget, hpx, hearlier⟩ := ih x h
      refine ⟨i + 1, by simpa using Nat.succ_lt_succ hi, by simpa using hget, hpx, ?_⟩
      intro j hj
      match j with
      | 0 => simpa using hpa
      | j + 1 =>
        have hj2 : j < i := by omega
        simpa using hearlier j hj2

theorem collectTxHashes_mem (parts : List TransferPart) (h : String)
    (hmem : h ∈ collectTxHashes parts) :
    ∃ p ∈ parts, p.txHash = some h ∧ p.status ≠ TransferStatus.Mining := by
  obtain ⟨part, hpmem, hpeq⟩ := List.mem_filterMap.mp hmem
  refine ⟨part, hpmem, ?_⟩
  revert hpeq
  cases hth : part.txHash with
  | none => intro hpeq; exact absurd hpeq (by simp)
  | some g =>
    intro hpeq
    simp only at hpeq
    split at hpeq
    · rename_i hne
      obtain rfl := Option.some.inj hpeq
      exact ⟨rfl, hne⟩
    · exact absurd hpeq (by simp)

theorem statusString_of_isFailedB {s : TransferStatus} (h : s.isFailedB = true) :
    s.statusString = "Failed" := by
  cases s <;> first
    | rfl
    | exact absurd h (by simp [TransferStatus.isFailedB])

theorem mem_of_getLast?_eq {α} {l : List α} {a : α} (h : l.getLast? = some a) :
    a ∈ l := by
  obtain ⟨hne, ha⟩ :=
    List.mem_getLast?_eq_getLast (l := l) (x := a) (Option.mem_def.mpr h)
  rw [ha]
  exact List.getLast_mem hne

theorem txStatusResponseFrom_cons_done (p0 : TransferPart) (rest : List TransferPart)
    (hlast : ((p0 :: rest).getLast (List.cons_ne_nil p0 rest)).status =
      TransferStatus.Done) :
    txStatusResponseFrom (p0 :: rest) = some
      { status := "Done"
        timestamp := ((p0 :: rest).getLast (List.cons_ne_nil p0 rest)).timestamp
        txHash := (collectTxHashes (p0 :: rest)).getLast?
        linkedTxHashes :=
          if (collectTxHashes (p0 :: rest)).getLast?.isSome then
            some (collectTxHashes (p0 :: rest)).dropLast
          else none
        failureReason := none } := by
  rw [txStatusResponseFrom, hlast]
  rfl

theorem txStatusResponseFrom_cons_failed (p0 : TransferPart)
    (rest : List TransferPart) (e : CloudError)
    (hlast : ((p0 :: rest).getLast (List.cons_ne_nil p0 rest)).status =
      TransferStatus.Failed e)
    (fp : TransferPart)
    (hfind : (p0 :: rest).find? (fun p => p.status.isFailedB) = some fp) :
    txStatusResponseFrom (p0 :: rest) = some
      { status := fp.status.statusString
        timestamp := fp.timestamp
        txHash := (collectTxHashes (p0 :: rest)).getLast?
        linkedTxHashes :=
          if (collectTxHashes (p0 :: rest)).getLast?.isSome then
            some (collectTxHashes (p0 :: rest)).dropLast
          else none
        failureReason := fp.status.failureReason } := by
  rw [txStatusResponseFrom, hlast, hfind]
  rfl

theorem txStatusResponseFrom_cons_running_some (p0 : TransferPart)
    (rest : List TransferPart) (s : TransferStatus) (rp : TransferPart)
    (hlast : ((p0 :: rest).getLast (List.cons_ne_nil p0 rest)).status = s)
    (hs1 : s ≠ TransferStatus.Done) (hs2 : s.isFailedB = false)
    (hrel : ((p0 :: rest).filter fun p =>
        p.status ≠ TransferStatus.New).getLast? = some rp) :
    txStatusResponseFrom (p0 :: rest) = some
      { status := "Relaying"
        timestamp := rp.timestamp
        txHash := (collectTxHashes (p0 :: rest)).getLast?
        linkedTxHashes :=
          if (collectTxHashes (p0 :: rest)).getLast?.isSome then
            some (collectTxHashes (p0 :: rest)).dropLast
          else none
        failureReason := none } := by
  cases s with
  | Done => exact absurd rfl hs1
  | Failed e => exact absurd hs2 (by simp [TransferStatus.isFailedB])
  | New => rw [txStatusResponseFrom, hlast, hrel]; rfl
  | Proving => rw [txStatusResponseFrom, hlast, hrel]; rfl
  | Relaying => rw [txStatusResponseFrom, hlast, hrel]; rfl
  | Mining => rw [txStatusResponseFrom, hlast, hrel]; rfl

theorem txStatusResponseFrom_cons_running_none (p0 : TransferPart)
    (rest : List TransferPart) (s : TransferStatus)
    (hlast : ((p0 :: rest).getLast (List.cons_ne_nil p0 rest)).status = s)
    (hs1 : s ≠ TransferStatus.Done) (hs2 : s.isFailedB = false)
    (hrel : ((p0 :: rest).filter fun p =>
        p.status ≠ TransferStatus.New).getLast? = none) :
    txStatusResponseFrom (p0 :: rest) = some
      { status := "New"
        timestamp := p0.timestamp
        txHash := (collectTxHashes (p0 :: rest)).getLast?
        linkedTxHashes :=
          if (collectTxHashes (p0 :: rest)).getLast?.isSome then
            some (collectTxHashes (p0 :: rest)).dropLast
          else none
        failureReason := none } := by
  cases s with
  | Done => exact absurd rfl hs1
  | Failed e => exact absurd hs2 (by simp [TransferStatus.isFailedB])
  | New => rw [txStatusResponseFrom, hlast, hrel]; rfl
  | Proving => rw [txStatusResponseFrom, hlast, hrel]; rfl
  | Relaying => rw [txStatusResponseFrom, hlast, hrel]; rfl
  | Mining => rw [txStatusResponseFrom, hlast, hrel]; rfl

theorem txHashProps (parts : List TransferPart) (txh : Option String)
    (lk : Option (List String))
    (hh : txh = (collectTxHashes parts).getLast?)
    (hl : lk = if txh.isSome then some (collectTxHashes parts).dropLast else none) :
    (txh.isSome → lk = some (collectTxHashes parts).dropLast) ∧
    (txh = none → lk = none) ∧
    (∀ hsh, txh = some hsh →
      ∃ p ∈ parts, p.txHash = some hsh ∧ p.status ≠ TransferStatus.Mining) ∧
    (∀ hs, lk = some hs → ∀ hsh ∈ hs,
      ∃ p ∈ parts, p.txHash = some hsh ∧ p.status ≠ TransferStatus.Mining) := by
  subst hh
  subst hl
  refine ⟨fun hs => by rw [if_pos hs], fun hn => by rw [if_neg (by simp [hn])], ?_, ?_⟩
  · intro hsh hhsh
    exact collectTxHashes_mem _ _ (mem_of_getLast?_eq hhsh)
  · intro hs hlk hsh hmem
    have heq : hs = (collectTxHashes parts).dropLast := by
      split at hlk
      · exact (Option.some.inj hlk).symm
      · exact absurd hlk (by simp)
    subst heq
    exact collectTxHashes_mem _ _ (List.dropLast_subset _ hmem)

theorem txStatusResponse_running (p0 : TransferPart) (rest : List TransferPart)
    (s : TransferStatus)
    (hlast : ((p0 :: rest).getLast (List.cons_ne_nil p0 rest)).status = s)
    (hs1 : s ≠ TransferStatus.Done) (hs2 : s.isFailedB = false) :
    ∃ resp, txStatusResponseFrom (p0 :: rest) = some resp ∧
    (resp.status = "Done" ↔
      ((p0 :: rest).getLast (List.cons_ne_nil p0 rest)).status =
        TransferStatus.Done) ∧
    (((p0 :: rest).getLast (List.cons_ne_nil p0 rest)).status.isFailedB = true →
      ∃ i, ∃ hi : i < (p0 :: rest).length,
        ((p0 :: rest).get ⟨i, hi⟩).status.isFailedB = true ∧
        (∀ j, ∀ hj : j < i,
          ((p0 :: rest).get ⟨j, by omega⟩).status.isFailedB = false) ∧
        resp.status = "Failed" ∧
        resp.timestamp = ((p0 :: rest).get ⟨i, hi⟩).timestamp ∧
        resp.failureReason = ((p0 :: rest).get ⟨i, hi⟩).status.failureReason) ∧
    (((p0 :: rest).getLast (List.cons_ne_nil p0 rest)).status ≠
        TransferStatus.Done →
      ((p0 :: rest).getLast (List.cons_ne_nil p0 rest)).status.isFailedB = false →
      ((∃ p ∈ p0 :: rest, p.status ≠ TransferStatus.New) →
        resp.status = "Relaying" ∧
        ∃ p ∈ p0 :: rest, p.status ≠ TransferStatus.New ∧
          resp.timestamp = p.timestamp) ∧
      ((∀ p ∈ p0 :: rest, p.status = TransferStatus.New) →
        resp.status = "New" ∧ resp.timestamp = p0.timestamp)) ∧
    resp.txHash = (collectTxHashes (p0 :: rest)).getLast? ∧
    (resp.txHash.isSome →
      resp.linkedTxHashes = some (collectTxHashes (p0 :: rest)).dropLast) ∧
    (resp.txHash = none → resp.linkedTxHashes = none) ∧
    (∀ hsh, resp.txHash = some hsh →
      ∃ p ∈ p0 :: rest, p.txHash = some hsh ∧
        p.status ≠ TransferStatus.Mining) ∧
    (∀ hs, resp.linkedTxHashes = some hs → ∀ hsh ∈ hs,
      ∃ p ∈ p0 :: rest, p.txHash = some hsh ∧
        p.status ≠ TransferStatus.Mining) := by
  cases hrel : ((p0 :: rest).filter fun p =>
      p.status ≠ TransferStatus.New).getLast? with
  | some rp =>
    have hrpmem := mem_of_getLast?_eq hrel
    obtain ⟨hrpin, hrpne⟩ := List.mem_filter.mp hrpmem
    refine ⟨_,
      txStatusResponseFrom_cons_running_some p0 rest s rp hlast hs1 hs2 hrel,
      ?_, ?_, ?_, rfl, ?_⟩
    · rw [hlast]
      constructor
      · intro hstr
        simp at hstr
      · intro hcon
        exact absurd hcon hs1
    · intro hfail
      rw [hlast] at hfail
      exact absurd hfail (by simp [hs2])
    · intro hnd hnf
      constructor
      · intro hex
        exact ⟨rfl, rp, hrpin, by simpa using hrpne, rfl⟩
      · intro hallnew
        have hnew := hallnew rp hrpin
        have h2 : rp.status ≠ TransferStatus.New := by simpa using hrpne
        exact absurd hnew h2
    · exact txHashProps (p0 :: rest) _ _ rfl rfl
  | none =>
    have hfilnil : ((p0 :: rest).filter fun p =>
        p.status ≠ TransferStatus.New) = [] :=
      List.getLast?_eq_none_iff.mp hrel
    refine ⟨_,
      txStatusResponseFrom_cons_running_none p0 rest s hlast hs1 hs2 hrel,
      ?_, ?_, ?_, rfl, ?_⟩
    · rw [hlast]
      constructor
      · intro hstr
        simp at hstr
      · intro hcon
        exact absurd hcon hs1
    · intro hfail
      rw [hlast] at hfail
      exact absurd hfail (by simp [hs2])
    · intro hnd hnf
      constructor
      · intro ⟨p, hpmem, hpne⟩
        have hmem2 : p ∈ (p0 :: rest).filter fun q =>
            q.status ≠ TransferStatus.New :=
          List.mem_filter.mpr ⟨hpmem, by simpa using hpne⟩
        rw [hfilnil] at hmem2
        exact absurd hmem2 (List.not_mem_nil _)
      · intro hall
        exact ⟨rfl, rfl⟩
    · exact txHashProps (p0 :: rest) _ _ rfl rfl

/-- C9: for a non-empty part list, the transaction-status response reports
"Done" exactly when the last part is `Done`; when the last part is `Failed`
the status, timestamp and failure reason come from the earliest failed part;
otherwise the status is "Relaying" with the timestamp of a part that has left
`New` when one exists, and "New" with part 0's timestamp when none has; and
the reported tx hash (and every linked tx hash) comes from a part that
carries a hash and whose status is not `Mining`, the linked list being the
remaining such hashes. -/
theorem txStatusResponse_spec (p0 : TransferPart) (rest : List TransferPart) :
    ∃ resp, txStatusResponseFrom (p0 :: rest) = some resp ∧
    (resp.status = "Done" ↔
      ((p0 :: rest).getLast (List.cons_ne_nil p0 rest)).status =
        TransferStatus.Done) ∧
    (((p0 :: rest).getLast (List.cons_ne_nil p0 rest)).status.isFailedB = true →
      ∃ i, ∃ hi : i < (p0 :: rest).length,
        ((p0 :: rest).get ⟨i, hi⟩).status.isFailedB = true ∧
        (∀ j, ∀ hj : j < i,
          ((p0 :: rest).get ⟨j, by omega⟩).status.isFailedB = false) ∧
        resp.status = "Failed" ∧
        resp.timestamp = ((p0 :: rest).get ⟨i, hi⟩).timestamp ∧
        resp.failureReason = ((p0 :: rest).get ⟨i, hi⟩).status.failureReason) ∧
    (((p0 :: rest).getLast (List.cons_ne_nil p0 rest)).status ≠
        TransferStatus.Done →
      ((p0 :: rest).getLast (List.cons_ne_nil p0 rest)).status.isFailedB = false →
      ((∃ p ∈ p0 :: rest, p.status ≠ TransferStatus.New) →
        resp.status = "Relaying" ∧
        ∃ p ∈ p0 :: rest, p.status ≠ TransferStatus.New ∧
          resp.timestamp = p.timestamp) ∧
      ((∀ p ∈ p0 :: rest, p.status = TransferStatus.New) →
        resp.status = "New" ∧ resp.timestamp = p0.timestamp)) ∧
    resp.txHash = (collectTxHashes (p0 :: rest)).getLast? ∧
    (resp.txHash.isSome →
      resp.linkedTxHashes = some (collectTxHashes (p0 :: rest)).dropLast) ∧
    (resp.txHash = none → resp.linkedTxHashes = none) ∧
    (∀ hsh, resp.txHash = some hsh →
      ∃ p ∈ p0 :: rest, p.txHash = some hsh ∧
        p.status ≠ TransferStatus.Mining) ∧
    (∀ hs, resp.linkedTxHashes = some hs → ∀ hsh ∈ hs,
      ∃ p ∈ p0 :: rest, p.txHash = some hsh ∧
        p.status ≠ TransferStatus.Mining) := by
  by_cases hdone : ((p0 :: rest).getLast (List.cons_ne_nil p0 rest)).status =
      TransferStatus.Done
  · refine ⟨_, txStatusResponseFrom_cons_done p0 rest hdone, ?_, ?_, ?_, rfl, ?_⟩
    · simp [hdone]
    · intro hfail
      rw [hdone] at hfail
      exact absurd hfail (by simp [TransferStatus.isFailedB])
    · intro hnd
      exact absurd hdone hnd
    · exact txHashProps (p0 :: rest) _ _ rfl rfl
  · by_cases hfl : ((p0 :: rest).getLast (List.cons_ne_nil p0 rest)).status.isFailedB =
        true
    · obtain ⟨e, heq⟩ : ∃ e,
          ((p0 :: rest).getLast (List.cons_ne_nil p0 rest)).status =
            TransferStatus.Failed e := by
        cases hst : ((p0 :: rest).getLast (List.cons_ne_nil p0 rest)).status with
        | Failed e => exact ⟨e, rfl⟩
        | Done => rw [hst] at hfl; exact absurd hfl (by simp [TransferStatus.isFailedB])
        | New => rw [hst] at hfl; exact absurd hfl (by simp [TransferStatus.isFailedB])
        | Proving => rw [hst] at hfl; exact absurd hfl (by simp [TransferStatus.isFailedB])
        | Relaying => rw [hst] at hfl; exact absurd hfl (by simp [TransferStatus.isFailedB])
        | Mining => rw [hst] at hfl; exact absurd hfl (by simp [TransferStatus.isFailedB])
      have hfindS : ((p0 :: rest).find? fun p => p.status.isFailedB).isSome := by
        apply List.find?_isSome.mpr
        exact ⟨_, List.getLast_mem (List.cons_ne_nil p0 rest), hfl⟩
      obtain ⟨fp, hfind⟩ := Option.isSome_iff_exists.mp hfindS
      have hfpFailed : fp.status.isFailedB = true := by
        have hx := List.find?_some hfind
        simpa using hx
      obtain ⟨i, hi, hget, -, hearlier⟩ := find?_earliest _ _ _ hfind
      refine ⟨_, txStatusResponseFrom_cons_failed p0 rest e heq fp hfind,
        ?_, ?_, ?_, rfl, ?_⟩
      · rw [heq]
        constructor
        · intro hstr
          rw [statusString_of_isFailedB hfpFailed] at hstr
          simp at hstr
        · intro hcon
          exact absurd hcon (by simp)
      · intro hfail
        refine ⟨i, hi, by rw [hget]; exact hfpFailed, hearlier, ?_, ?_, ?_⟩
        · exact statusString_of_isFailedB hfpFailed
        · rw [hget]
        · rw [hget]
      · intro hnd hnf
        rw [hnf] at hfl
        exact Bool.noConfusion hfl
      · exact txHashProps (p0 :: rest) _ _ rfl rfl
    · exact txStatusResponse_running p0 rest _ rfl hdone (by simpa using hfl)

/-- C9 witness: the response for a single finished part reports "Done". -/
theorem txStatusResponse_spec_witness :
    ∃ resp, txStatusResponseFrom
      [{ id := "r.0", requestId := "r", accountId := "a", amount := 1, fee := 1
         toAddr := none, status := TransferStatus.Done, jobId := none
         txHash := some "0xh", dependsOn := none, attempt := 0,
         timestamp := 3 }] = some resp ∧ resp.status = "Done" := by
  obtain ⟨resp, heq, hiff, -⟩ := txStatusResponse_spec
    { id := "r.0", requestId := "r", accountId := "a", amount := 1, fee := 1
      toAddr := none, status := TransferStatus.Done, jobId := none
      txHash := some "0xh", dependsOn := none, attempt := 0, timestamp := 3 } []
  exact ⟨resp, heq, hiff.mpr rfl⟩

/-- Concrete loopback memo for the history witness: one in-note and one
out-note sharing index 5 (spec scenario S6). -/
def loopbackMemo : DecMemo :=
  { index := 0
    acc := none
    inNotes := [{ index := 5, note := { d := 1, pd := 2, b := 7 } }]
    outNotes := [{ index := 5, note := { d := 3, pd := 4, b := 9 } }]
    txHash := some "h" }

/-- C7 witness: the loopback-rule theorem applied to a memo with a single
loopback note yields exactly one `ReturnedChange` entry and no
`TransferIn`/`TransferOut`. -/
theorem history_loopback_rule_witness :
    ((⟨Web3TxType.Transfer, 11, some 10, none⟩ : TxWeb3Info).txType =
      Web3TxType.Transfer) ∧
    (((historyParse (fun _ _ => "addr") loopbackMemo
          ⟨Web3TxType.Transfer, 11, some 10, none⟩ none none).filter fun e =>
        e.txType = HistoryTxType.ReturnedChange).length =
      (loopbackMemo.inNotes.filter fun n =>
        loopbackMemo.outNotes.any fun o => o.index = n.index).length ∧
    ((historyParse (fun _ _ => "addr") loopbackMemo
          ⟨Web3TxType.Transfer, 11, some 10, none⟩ none none).filter fun e =>
        e.txType = HistoryTxType.TransferIn).length =
      (loopbackMemo.inNotes.filter fun n =>
        !(loopbackMemo.outNotes.any fun o => o.index = n.index)).length ∧
    ((historyParse (fun _ _ => "addr") loopbackMemo
          ⟨Web3TxType.Transfer, 11, some 10, none⟩ none none).filter fun e =>
        e.txType = HistoryTxType.TransferOut).length =
      (loopbackMemo.outNotes.filter fun o =>
        !(loopbackMemo.inNotes.any fun i => i.index = o.index)).length) ∧
    (loopbackMemo.inNotes.filter fun n =>
      loopbackMemo.outNotes.any fun o => o.index = n.index).length = 1 :=
  ⟨rfl,
   history_loopback_rule (fun _ _ => "addr") loopbackMemo
     ⟨Web3TxType.Transfer, 11, some 10, none⟩ none none rfl,
   by decide⟩

/-- C6 witness: the batch theorem at a two-record batch whose second record
has a one-byte memo; the batch is rejected as a whole. -/
theorem parse_txs_all_or_nothing_witness :
    ((∃ tx ∈ [({ index := 0, memo := [0, 0, 0, 0], commitment := 0,
                 txHash := "a", optimistic := false } : Transaction),
              ({ index := 128, memo := [7], commitment := 0,
                 txHash := "b", optimistic := false } : Transaction)],
      exceptIsOk (parseTx
        { decryptOut := fun _ => none, decryptIn := fun _ => []
          deriveKeyPd := fun _ => 0, delegatedDeposits := fun _ _ => []
          zeroAccountHash := 0, noteHash := fun _ => 0 } tx) = false) ↔
      parseTxs
        { decryptOut := fun _ => none, decryptIn := fun _ => []
          deriveKeyPd := fun _ => 0, delegatedDeposits := fun _ _ => []
          zeroAccountHash := 0, noteHash := fun _ => 0 }
        [{ index := 0, memo := [0, 0, 0, 0], commitment := 0,
           txHash := "a", optimistic := false },
         { index := 128, memo := [7], commitment := 0,
           txHash := "b", optimistic := false }] = .error .StateSyncError) :=
  (parse_txs_all_or_nothing
    { decryptOut := fun _ => none, decryptIn := fun _ => []
      deriveKeyPd := fun _ => 0, delegatedDeposits := fun _ _ => []
      zeroAccountHash := 0, noteHash := fun _ => 0 }
    [{ index := 0, memo := [0, 0, 0, 0], commitment := 0,
       txHash := "a", optimistic := false },
     { index := 128, memo := [7], commitment := 0,
       txHash := "b", optimistic := false }]).2.1

/-! ## Account creation (`ZkBobCloud::new_account`, `src/cloud/mod.rs`) -/

/-- A registry row (`AccountData` in `src/cloud/types.rs`). -/
structure RegistryAccountData where
  description : String
  dbPath : String
  sk : String
  deriving DecidableEq, Repr

/-- The cloud accounts registry (the `Accounts` column of the cloud
database), keyed by account id. -/
structure AccountsDb where
  accounts : String → Option RegistryAccountData

/-- Modelled from the spec: `Db::account_exists` (called by `new_account` in
`src/cloud/mod.rs`) is absent from the provided sources, which only carry an
older `cloud/db.rs`; per the data model (§3, account registry keyed by uuid)
it is the existence of the registry row for the id. -/
def AccountsDb.accountExists (db : AccountsDb) (id : String) : Bool :=
  (db.accounts id).isSome

/-- Outcomes of the effectful collaborators of `new_account`: the on-disk
`Account::new` construction (which writes the secret key and description into
the account's own database), key export, and the registry write. -/
structure NewAccountEnv where
  createAccount : Except CloudError Unit
  exportKey : Except CloudError String
  saveResult : Except CloudError Unit

/-- `ZkBobCloud::new_account` from `src/cloud/mod.rs` for an explicitly
supplied id: reject a duplicate id before anything is created; otherwise
build the on-disk account, export its key and save the registry row.
Returns the result, the resulting registry, and whether on-disk account
construction was started. -/
def newAccount (db : AccountsDb) (env : NewAccountEnv) (id description : String)
    (dbPath : String) :
    (Except CloudError String) × AccountsDb × Bool :=
  if db.accountExists id then (.error .DuplicateAccountId, db, false)
  else
    match env.createAccount with
    | .error e => (.error e, db, true)
    | .ok _ =>
    match env.exportKey with
    | .error e => (.error e, db, true)
    | .ok sk =>
    match env.saveResult with
    | .error e => (.error e, db, true)
    | .ok _ =>
      (.ok id,
       { accounts := fun q =>
           if q = id then
             some { description := description, dbPath := dbPath, sk := sk }
           else db.accounts q },
       true)

/-- C10: `new_account` with an explicit id whose registry row already exists
returns `DuplicateAccountId` and creates nothing — the registry is unchanged
and the on-disk account construction is never started. -/
theorem newAccount_duplicate_rejected (db : AccountsDb) (env : NewAccountEnv)
    (id description dbPath : String)
    (hdup : db.accountExists id = true) :
    newAccount db env id description dbPath =
      (.error .DuplicateAccountId, db, false) := by
  rw [newAccount, if_pos hdup]

/-- C10 witness: the duplicate-rejection theorem at a concrete registry
already holding the id. -/
theorem newAccount_duplicate_rejected_witness :
    (AccountsDb.accountExists
      { accounts := fun q =>
          if q = "u1" then
            some { description := "d", dbPath := "p", sk := "s" }
          else none } "u1" = true) ∧
    newAccount
      { accounts := fun q =>
          if q = "u1" then
            some { description := "d", dbPath := "p", sk := "s" }
          else none }
      { createAccount := .ok (), exportKey := .ok "s", saveResult := .ok () }
      "u1" "other" "path" =
      (.error .DuplicateAccountId,
       { accounts := fun q =>
           if q = "u1" then
             some { description := "d", dbPath := "p", sk := "s" }
           else none }, false) :=
  ⟨by decide,
   newAccount_duplicate_rejected
     { accounts := fun q =>
         if q = "u1" then
           some { description := "d", dbPath := "p", sk := "s" }
         else none }
     { createAccount := .ok (), exportKey := .ok "s", saveResult := .ok () }
     "u1" "other" "path" (by decide)⟩

end ZkCloud
